import Mathlib

/-
Verification development for the per-instance process and session supervision
layer of the repository: the server process supervisor
(src/main/services/odoo/OdooProcessManager.ts), the shell session supervisor
(src/main/services/odoo/OdooShellManager.ts) and the AI assistant session
supervisor (ClaudeSessionManager). Each definition below is a shallow
embedding of one function or handler of the source, with the source line
numbers given in its documentation.
-/

set_option maxHeartbeats 1000000

namespace Spec2Proof

/-- Model of the JavaScript substring test used by the supervisors:
`containsSub hay pat` is true when `pat` occurs as a contiguous substring of
`hay`. -/
def containsSub (hay pat : List Char) : Bool :=
  match hay with
  | [] => pat.isEmpty
  | _ :: rest => pat.isPrefixOf hay || containsSub rest pat

/-- Model of `s.includes(pat)` from the source. -/
def strContains (s pat : String) : Bool := containsSub s.toList pat.toList

/-- Model of `s.split('\n')`: splits at every newline, keeping empty
segments. -/
def splitNl : List Char → List (List Char)
  | [] => [[]]
  | c :: cs =>
    if c = '\n' then [] :: splitNl cs
    else
      match splitNl cs with
      | [] => [[c]]
      | l :: ls => (c :: l) :: ls

/-- Model of `data.toString().split('\n').filter(Boolean)` in
`OdooProcessManager.start`: the nonempty lines of a chunk of process
output. -/
def toLines (s : String) : List String :=
  ((splitNl s.toList).map (fun l => String.mk l)).filter (fun l => !(l == ""))

namespace OdooProcessManager

/-- The five severity words of the alternation in the regular expression of
`OdooProcessManager.parseLogLine` (line 190), in source order. -/
def levelWords : List String := ["INFO", "WARNING", "ERROR", "CRITICAL", "DEBUG"]

/-- Whitespace character class of the regular expression. -/
def isSpaceCh (c : Char) : Bool :=
  c = ' ' || c = '\t' || c = '\n' || c = '\r' || c = Char.ofNat 11 || c = Char.ofNat 12

/-- Consume exactly `n` digit characters. -/
def expectDigits : Nat → List Char → Option (List Char)
  | 0, cs => some cs
  | n+1, c :: cs => if c.isDigit then expectDigits n cs else none
  | _+1, [] => none

/-- Consume one fixed character. -/
def expectChar (ch : Char) : List Char → Option (List Char)
  | c :: cs => if c = ch then some cs else none
  | [] => none

/-- Consume a nonempty greedy run of characters satisfying `p`. In the
pattern of `parseLogLine` the piece that follows each such run can never
match a character of the class `p`, so the greedy run never backtracks. -/
def expectPlus (p : Char → Bool) (cs : List Char) : Option (List Char) :=
  match cs.span p with
  | (taken, rest) => if taken.isEmpty then none else some rest

/-- Consume a fixed literal word. -/
def stripWord : List Char → List Char → Option (List Char)
  | [], cs => some cs
  | p :: ps, c :: cs => if c = p then stripWord ps cs else none
  | _ :: _, [] => none

/-- Try each severity word of the alternation in order. The five words have
pairwise distinct first letters, so at most one of them can match at a given
position. -/
def findLevel : List String → List Char → Option (String × List Char)
  | [], _ => none
  | w :: ws, cs =>
    match stripWord w.toList cs with
    | some rest => some (w, rest)
    | none => findLevel ws cs

/-- The lazy piece of the pattern: the shortest nonempty run of
non-whitespace characters whose very next character is a colon. Returns the
run and the text after the colon. -/
def scanModuleAux (acc : List Char) : List Char → Option (List Char × List Char)
  | [] => none
  | c :: cs =>
    if isSpaceCh c then none
    else
      match cs with
      | ':' :: rest => some (acc ++ [c], rest)
      | _ => scanModuleAux (acc ++ [c]) cs

/-- The date piece of the pattern of `parseLogLine`: four digits, dash, two
digits, dash, two digits. -/
def matchDate (cs : List Char) : Option (List Char) :=
  (expectDigits 4 cs).bind fun a =>
  (expectChar '-' a).bind fun b =>
  (expectDigits 2 b).bind fun c =>
  (expectChar '-' c).bind fun d =>
  expectDigits 2 d

/-- The time-of-day and millisecond piece of the pattern: two digits, colon,
two digits, colon, two digits, comma, a digit run. -/
def matchClock (cs : List Char) : Option (List Char) :=
  (expectDigits 2 cs).bind fun a =>
  (expectChar ':' a).bind fun b =>
  (expectDigits 2 b).bind fun c =>
  (expectChar ':' c).bind fun d =>
  (expectDigits 2 d).bind fun e =>
  (expectChar ',' e).bind fun f =>
  expectPlus Char.isDigit f

/-- The date, time and pid prefix of the pattern of `parseLogLine`, applied
at the head of `cs`: date, whitespace, clock, whitespace, a digit run (the
pid), whitespace. Adjacent pieces have disjoint character classes, so this
deterministic parse has exactly the matches of the backtracking
regular-expression engine. -/
def matchHead (cs : List Char) : Option (List Char) :=
  (matchDate cs).bind fun a =>
  (expectPlus isSpaceCh a).bind fun b =>
  (matchClock b).bind fun c =>
  (expectPlus isSpaceCh c).bind fun d =>
  (expectPlus Char.isDigit d).bind fun e =>
  expectPlus isSpaceCh e

/-- Attempt the whole pattern of `parseLogLine` at the head of `cs`: the
prefix of `matchHead`, a severity word, whitespace, the lazy module piece, a
colon, optional whitespace, and the rest of the line as the message. -/
def matchOdooAt (cs : List Char) : Option (String × String × String) :=
  match matchHead cs with
  | none => none
  | some cs1 =>
    match findLevel levelWords cs1 with
    | none => none
    | some (lv, cs2) =>
      match expectPlus isSpaceCh cs2 with
      | none => none
      | some cs3 =>
        match scanModuleAux [] cs3 with
        | none => none
        | some (md, cs4) =>
          some (lv, String.mk md, String.mk (cs4.dropWhile isSpaceCh))

/-- Leftmost unanchored search, like `line.match(re)` in the source: try the
pattern at every start position, left to right. -/
def searchOdoo : List Char → Option (String × String × String)
  | [] => none
  | c :: rest =>
    match matchOdooAt (c :: rest) with
    | some r => some r
    | none => searchOdoo rest

/-- The record returned by `parseLogLine`. -/
structure ParsedLog where
  level : String
  module : String
  message : String
deriving DecidableEq

/-- Model of `OdooProcessManager.parseLogLine` (lines 187-196): classify a
line against the structured Odoo log pattern; a line that does not match
defaults to level INFO with the whole line as the message. -/
def parseLogLine (line : String) : ParsedLog :=
  match searchOdoo line.toList with
  | some (lv, md, msg) => ⟨lv, md, msg⟩
  | none => ⟨"INFO", "", line⟩

/-- Broadcast and OS-level effects of the server process supervisor. -/
inductive PEvent
  | statusChanged (instanceId status : String)
  | storeUpdate (instanceId status : String)
  | logLine (instanceId line level : String)
  | desktopNotice (title body : String)
deriving DecidableEq

/-- Recognizer for a `running` status broadcast. -/
def isRunningEv : PEvent → Bool
  | .statusChanged _ s => s == "running"
  | _ => false

/-- Recognizer for a desktop notification. -/
def isNoticeEv : PEvent → Bool
  | .desktopNotice _ _ => true
  | _ => false

/-- Recognizer for a log-line broadcast. -/
def isLogEv : PEvent → Bool
  | .logLine _ _ _ => true
  | _ => false

/-- Recognizer for an ERROR-level log-line broadcast. -/
def isErrorLogEv : PEvent → Bool
  | .logLine _ _ lv => lv == "ERROR"
  | _ => false

/-- Number of events satisfying `p`. -/
def countP (p : PEvent → Bool) (evs : List PEvent) : Nat := (evs.filter p).length

/-- Model of `OdooProcessManager.notify` (lines 210-216): the desktop
notification is shown only when no window is focused and the platform
supports notifications. -/
def notify (focused supported : Bool) (title body : String) : List PEvent :=
  if !focused && supported then [.desktopNotice title body] else []

/-- Ambient data the output and close handlers of one started process close
over: instance id, display name and HTTP port from the instance record, plus
the window focus and notification support state of the environment at the
moment `notify` runs. -/
structure LineCtx where
  instanceId : String
  name : String
  httpPort : Nat
  focused : Bool
  supported : Bool

/-- The readiness marker of `handleData` (line 87). -/
def readyMarker : String := "HTTP service (werkzeug) running on"

/-- One iteration of the line loop of `handleData` (lines 80-94): broadcast
the classified log line; on the first line containing the readiness marker
flip the flag, broadcast `running`, update the store and send the
notification. -/
def processLine (ctx : LineCtx) (readyDetected : Bool) (line : String) :
    Bool × List PEvent :=
  if !readyDetected && strContains line readyMarker then
    (true,
      [PEvent.logLine ctx.instanceId line (parseLogLine line).level,
       PEvent.statusChanged ctx.instanceId "running",
       PEvent.storeUpdate ctx.instanceId "running"] ++
        notify ctx.focused ctx.supported (ctx.name ++ " is running")
          ("Available on port " ++ toString ctx.httpPort))
  else
    (readyDetected, [PEvent.logLine ctx.instanceId line (parseLogLine line).level])

/-- The line loop of `handleData`, threading the `readyDetected` flag of the
managed record through the lines of a chunk. -/
def runLines (ctx : LineCtx) (readyDetected : Bool) : List String → Bool × List PEvent
  | [] => (readyDetected, [])
  | l :: ls =>
    ((runLines ctx (processLine ctx readyDetected l).1 ls).1,
     (processLine ctx readyDetected l).2 ++
       (runLines ctx (processLine ctx readyDetected l).1 ls).2)

/-- Model of `handleData` (lines 78-95): split the chunk into nonempty lines
and process each in order. -/
def handleData (ctx : LineCtx) (readyDetected : Bool) (chunk : String) :
    Bool × List PEvent :=
  runLines ctx readyDetected (toLines chunk)

/-- Model of the `close` handler installed by `start` (lines 100-109):
remove the registry entry, map the exit code to the final status (`stopped`
for exit code 0 or a signal-terminated null code, `error` for every other
code), broadcast and store it, and for an error exit additionally broadcast
the synthetic ERROR log line and the notification. -/
def closeHandler (ctx : LineCtx) (processes : List String) (code : Option Int) :
    List String × String × List PEvent :=
  let procs := processes.erase ctx.instanceId
  let status := if code = some 0 ∨ code = none then "stopped" else "error"
  let base : List PEvent :=
    [.statusChanged ctx.instanceId status, .storeUpdate ctx.instanceId status]
  let extra : List PEvent :=
    match code with
    | some c =>
      if c = 0 then []
      else
        [PEvent.logLine ctx.instanceId ("Process exited with code " ++ toString c)
            "ERROR"] ++
          notify ctx.focused ctx.supported (ctx.name ++ " error")
            ("Process exited with code " ++ toString c)
    | none => []
  (procs, status, base ++ extra)

/-- Entry guard and `stopping` broadcast of `OdooProcessManager.stop`
(lines 120-128): a key with no live record is rejected with an error rather
than returning silently. -/
def stopRequest (processes : List String) (instanceId : String) :
    Except String (List PEvent) :=
  if instanceId ∈ processes then
    .ok [.statusChanged instanceId "stopping", .storeUpdate instanceId "stopping"]
  else
    .error "Instance is not running"

/-- Delay of the SIGKILL escalation timer of `stop` (line 142). -/
def killDelayMs : Nat := 10000

/-- Delay of the outer safety timer of `stop` (line 138). -/
def safetyDelayMs : Nat := 15000

/-- The kill timer of `stop` (lines 140-142) is scheduled at 10 s and cleared
by the `close` listener (line 145); it therefore fires iff the child does not
close strictly before 10 s. The argument is the time at which the `close`
event fires, if it ever does, in ms after `stop` posts the polite
termination signal. -/
def killTimerFires : Option Nat → Bool
  | none => true
  | some t => decide (killDelayMs ≤ t)

/-- The safety timer of `stop` (lines 133-138) is scheduled at 15 s and
cleared by the `close` listener (line 146); it fires iff the child does not
close strictly before 15 s. -/
def safetyTimerFires : Option Nat → Bool
  | none => true
  | some t => decide (safetyDelayMs ≤ t)

/-- Time at which the promise of `stop` settles: the first call to
`resolve`, which is either the `close` listener (line 147) at the close time
or the safety timer (line 137) at 15 s, whichever comes first. Later calls to
`resolve` cannot change a settled promise. -/
def settleTime : Option Nat → Nat
  | none => safetyDelayMs
  | some t => min t safetyDelayMs

/-- The three ways the promise of `stop` can settle. -/
inductive StopCompletion
  | gracefulExit
  | forcedKillExit
  | safetyTimeout
deriving DecidableEq

/-- Which path settles the promise of `stop`, as a function of the optional
close time: a close before the 10 s kill timer is a graceful exit after the
polite signal, a close between the SIGKILL at 10 s and the 15 s bound is a
forced-kill exit, and otherwise the safety timer settles the promise at
15 s. -/
def completion : Option Nat → StopCompletion
  | none => .safetyTimeout
  | some t =>
    if t < killDelayMs then .gracefulExit
    else if t < safetyDelayMs then .forcedKillExit
    else .safetyTimeout

end OdooProcessManager

namespace OdooShellManager

/-- Observable effects of the shell session supervisor. -/
inductive SEvent
  | killed (instanceId : String)
deriving DecidableEq

/-- Model of `OdooShellManager.stop` (lines 74-79): an absent key returns
with no effect and no error; a live key is killed and removed from the
registry. -/
def stop (shells : List String) (instanceId : String) : List String × List SEvent :=
  if instanceId ∈ shells then (shells.erase instanceId, [.killed instanceId])
  else (shells, [])

/-- Entry guard of `OdooShellManager.start` (lines 12-15): a key that
already has a live shell is rejected with an error, not replaced. -/
def startGuard (shells : List String) (instanceId : String) : Except String Unit :=
  if instanceId ∈ shells then .error "Shell already running for this instance"
  else .ok ()

end OdooShellManager

namespace ClaudeSessionManager

/-- The user-turn payload built by `sendMessage` (lines 141-149), restricted
to the fields the model observes: the text content, the
`session.sessionId || ''` field and the optional parent tool-use id. -/
structure SDKUserMessage where
  content : String
  sessionId : String
  parentToolUseId : Option String
deriving DecidableEq

/-- The per-key `ActiveSession` record (lines 19-29), restricted to the
fields that drive the queue, preview and resume logic. The opaque query
handle and the abort controller are represented by their observable
effects. -/
structure Session where
  sessionId : Option String
  messagesSent : Nat
  inputQueue : List SDKUserMessage
  inputResolve : Bool
deriving DecidableEq

/-- The session record as `startSession` creates it (lines 48-50 and 68-78):
empty input queue, no parked pull, zero turns sent, session id taken from
the optional resume id. -/
def newSession (resume : Option String) : Session :=
  ⟨resume, 0, [], false⟩

/-- The message literal built by `sendMessage` (lines 141-149). -/
def mkUserMessage (s : Session) (text : String) (parentToolUseId : Option String) :
    SDKUserMessage :=
  ⟨text, s.sessionId.getD "", parentToolUseId⟩

/-- What `sendMessage` did with the turn: resolved the currently parked
backend pull with it, or appended it to the input queue. -/
inductive SendAction
  | resolvedNow (m : SDKUserMessage)
  | queued
deriving DecidableEq

/-- Model of `sendMessage` (lines 137-165). Returns the updated session, the
preview forwarded to the session-history store, and what happened to the
turn. The preview (`updateSessionPreview`, lines 152-154) is sent only when
no turn has been sent yet and the session already has a remote session id;
it carries the instance id, the session id and the first 100 characters of
the text. After the preview check the turn counter is incremented, and the
turn either resolves the parked pull (lines 158-161) or is queued
(line 163). -/
def sendMessage (instanceId : String) (s : Session) (text : String)
    (parentToolUseId : Option String) :
    Session × Option (String × String × String) × SendAction :=
  let msg := mkUserMessage s text parentToolUseId
  let preview : Option (String × String × String) :=
    if s.messagesSent = 0 then
      match s.sessionId with
      | some sid => some (instanceId, sid, text.take 100)
      | none => none
    else none
  let s1 : Session := { s with messagesSent := s.messagesSent + 1 }
  if s.inputResolve then
    ({ s1 with inputResolve := false }, preview, .resolvedNow msg)
  else
    ({ s1 with inputQueue := s.inputQueue ++ [msg] }, preview, .queued)

/-- Result of one backend pull on the input stream. -/
inductive PullResult
  | immediate (m : SDKUserMessage)
  | parked
deriving DecidableEq

/-- Model of the `next()` of the hand-rolled input stream (lines 56-63):
deliver the head of the queue when it is nonempty, otherwise park the pull
for the next `sendMessage`. -/
def pull (s : Session) : Session × PullResult :=
  match s.inputQueue with
  | m :: rest => ({ s with inputQueue := rest }, .immediate m)
  | [] => ({ s with inputResolve := true }, .parked)

/-- Perform `n` backend pulls in sequence, collecting the immediately
delivered turns; collection stops if a pull parks. -/
def pulls (s : Session) : Nat → Session × List SDKUserMessage
  | 0 => (s, [])
  | n+1 =>
    match pull s with
    | (s1, .immediate m) => ((pulls s1 n).1, m :: (pulls s1 n).2)
    | (s1, .parked) => (s1, [])

/-- Submit a list of user turns in order through `sendMessage`, keeping the
session state. -/
def sendAll (instanceId : String) (s : Session) : List String → Session
  | [] => s
  | t :: ts => sendAll instanceId (sendMessage instanceId s t none).1 ts

/-- Manager-level state: the per-key session registry and the
pending-permission table. The source table (lines 376-379) stores, per
generated request id, only the resolver callback and the permission
suggestions; the instance id kept here is the provenance of the entry — the
key `handlePermissionRequest` was invoked for (line 346) — carried so that
properties about the pending entries created on behalf of a session can be
stated. -/
structure CSMState where
  sessions : List (String × Session)
  pendingPermissions : List (String × String)
deriving DecidableEq

/-- Broadcast and control effects of the AI session supervisor. -/
inductive CEvent
  | abortSignalled (instanceId : String)
  | sessionStopped (instanceId : String)
  | sessionStarted (instanceId model : String)
deriving DecidableEq

/-- Lookup of `this.sessions.get(instanceId)`. -/
def lookupSession (st : CSMState) (instanceId : String) : Option Session :=
  (st.sessions.find? (fun p => p.1 == instanceId)).map (fun p => p.2)

/-- Model of `stopSession` (lines 167-175): a key with no session returns
silently; otherwise the abort controller is triggered, the registry entry is
removed and a session-stopped event is broadcast. The pending-permission
table is not touched by this function. -/
def stopSession (st : CSMState) (instanceId : String) : CSMState × List CEvent :=
  match lookupSession st instanceId with
  | none => (st, [])
  | some _ =>
    ({ st with sessions := st.sessions.filter (fun p => !(p.1 == instanceId)) },
     [.abortSignalled instanceId, .sessionStopped instanceId])

/-- Registry aspect of `startSession` (lines 40-43 and 111-124): an existing
session for the key is first stopped via `stopSession`, then the fresh
record is registered and a session-started event broadcast. The backend
spawn and stream wiring between those two steps has no registry effect. -/
def startSession (st : CSMState) (instanceId model : String)
    (resume : Option String) : CSMState × List CEvent :=
  let first := if (lookupSession st instanceId).isSome
    then stopSession st instanceId else (st, [])
  ({ first.1 with sessions := first.1.sessions ++ [(instanceId, newSession resume)] },
   first.2 ++ [.sessionStarted instanceId model])

/-- Result value delivered to the `canUseTool` callback of the backend.
`allow` carries the updated input — the caller path (line 390) passes the
empty object, modelled as the empty string, while the timeout path
(line 370) passes the original input back — and the optional suggested
permission updates. `deny` carries a message. -/
inductive PermResult
  | allow (updatedInput : String) (updatedPermissions : Option String)
  | deny (message : String)
deriving DecidableEq

/-- State of one pending permission request: whether its entry is still in
the pending table, and the resolve calls made so far together with their
wall-clock times. -/
structure PermPending where
  pending : Bool
  resolutions : List (Nat × PermResult)
deriving DecidableEq

/-- The two things that can act on a pending request after
`handlePermissionRequest` creates it: `resolvePermission` from the caller,
or the 60 s timer firing. -/
inductive PermAction
  | callerResolve (allowed : Bool) (message : Option String)
  | timerFire
deriving DecidableEq

/-- Delay of the auto-approve timer of `handlePermissionRequest`
(line 372). -/
def permTimeoutMs : Nat := 60000

/-- One action on a pending request, at wall-clock time `t`.
`resolvePermission` (lines 381-399) returns silently when the entry is
already gone; otherwise it deletes the entry and resolves with the decision
of the caller, a deny falling back to the default message. The timer
callback (lines 367-372) is a no-op when the entry is already gone;
otherwise it deletes the entry and resolves allow with the original tool
input. -/
def permStep (input : String) (suggestions : Option String)
    (st : PermPending) : Nat × PermAction → PermPending
  | (t, .callerResolve allowed msg) =>
    if st.pending then
      ⟨false, st.resolutions ++
        [(t, if allowed then PermResult.allow "" suggestions
             else PermResult.deny (msg.getD "User denied this action"))]⟩
    else st
  | (t, .timerFire) =>
    if st.pending then
      ⟨false, st.resolutions ++ [(t, PermResult.allow input none)]⟩
    else st

/-- Fold a time-ordered list of actions over a pending request. -/
def permRun (input : String) (suggestions : Option String)
    (st : PermPending) : List (Nat × PermAction) → PermPending
  | [] => st
  | a :: rest => permRun input suggestions (permStep input suggestions st a) rest

/-- A freshly created pending entry (lines 352-364). -/
def initPerm : PermPending := ⟨true, []⟩

end ClaudeSessionManager

/-- Helper: `find?` moves to the right part of an append when it fails on
the left part. -/
theorem find?_append_of_none {α : Type} (p : α → Bool) (l1 l2 : List α)
    (h : l1.find? p = none) : (l1 ++ l2).find? p = l2.find? p := by
  simp [List.find?_append, h]

/-- Helper: after filtering out the entries of a key, looking that key up
fails. -/
theorem find?_filter_self (l : List (String × ClaudeSessionManager.Session))
    (k : String) :
    (l.filter (fun p => !(p.1 == k))).find? (fun p => p.1 == k) = none := by
  rw [List.find?_eq_none]
  intro x hx
  have hmem := (List.mem_filter.mp hx).2
  simp only [Bool.not_eq_true'] at hmem
  simp [hmem]

/-- C1 counterexample: the claim says stop on a key with no live record is a
no-op returning without error for all three supervisors, but the server
process supervisor rejects such a call with an error. -/
theorem c1_processStop_errors :
    OdooProcessManager.stopRequest [] "A" =
      Except.error "Instance is not running" := by
  simp [OdooProcessManager.stopRequest]

/-- C1 (amended): stopping a key with no live record is a silent no-op for
the shell session supervisor and the AI session supervisor; the server
process supervisor instead rejects such a call with the error message
"Instance is not running". -/
theorem c1_stop_on_inactive_key
    (procs shells : List String) (st : ClaudeSessionManager.CSMState) (k : String)
    (hp : k ∉ procs) (hs : k ∉ shells)
    (hc : ClaudeSessionManager.lookupSession st k = none) :
    OdooProcessManager.stopRequest procs k =
      Except.error "Instance is not running" ∧
    OdooShellManager.stop shells k = (shells, []) ∧
    ClaudeSessionManager.stopSession st k = (st, []) := by
  refine ⟨?_, ?_, ?_⟩
  · simp [OdooProcessManager.stopRequest, hp]
  · simp [OdooShellManager.stop, hs]
  · simp [ClaudeSessionManager.stopSession, hc]

/-- C1 witness: the amended theorem applied to the empty registries. -/
theorem c1_stop_on_inactive_key_witness :
    OdooProcessManager.stopRequest [] "A" =
      Except.error "Instance is not running" ∧
    OdooShellManager.stop [] "A" = ([], []) ∧
    ClaudeSessionManager.stopSession ⟨[], []⟩ "A" = (⟨[], []⟩, []) :=
  c1_stop_on_inactive_key [] [] ⟨[], []⟩ "A" (by decide) (by decide) (by decide)

/-- C3 counterexample: the claim says the shell session supervisor silently
replaces a live record on start, but its start rejects a key that already
has a live shell. -/
theorem c3_shellStart_rejects_live_key :
    OdooShellManager.startGuard ["A"] "A" =
      Except.error "Shell already running for this instance" := by
  simp [OdooShellManager.startGuard]

/-- C3 (amended): the AI session supervisor silently replaces on start — the
old session is fully stopped first, the new record is registered, and no
already-active error is possible; the shell session supervisor instead
rejects start on a live key with the error "Shell already running for this
instance". -/
theorem c3_start_replaces_or_rejects :
    (∀ (st : ClaudeSessionManager.CSMState) (k model : String)
       (resume : Option String),
      (ClaudeSessionManager.startSession st k model resume).2 =
        ((if (ClaudeSessionManager.lookupSession st k).isSome
          then [ClaudeSessionManager.CEvent.abortSignalled k,
                ClaudeSessionManager.CEvent.sessionStopped k]
          else []) ++
         [ClaudeSessionManager.CEvent.sessionStarted k model]) ∧
      ClaudeSessionManager.lookupSession
          (ClaudeSessionManager.startSession st k model resume).1 k =
        some (ClaudeSessionManager.newSession resume)) ∧
    (∀ (rest : List String) (k : String),
      OdooShellManager.startGuard (k :: rest) k =
        Except.error "Shell already running for this instance") := by
  refine ⟨?_, ?_⟩
  · intro st k model resume
    cases h : ClaudeSessionManager.lookupSession st k with
    | none =>
      have hf : st.sessions.find? (fun p => p.1 == k) = none := by
        simpa [ClaudeSessionManager.lookupSession, Option.map_eq_none] using h
      refine ⟨by simp [ClaudeSessionManager.startSession, h], ?_⟩
      simp only [ClaudeSessionManager.startSession, h]
      simp only [Option.isSome_none, Bool.false_eq_true, if_false]
      simp [ClaudeSessionManager.lookupSession,
        find?_append_of_none _ _ _ hf, List.find?]
    | some s =>
      refine ⟨by simp [ClaudeSessionManager.startSession,
        ClaudeSessionManager.stopSession, h], ?_⟩
      simp only [ClaudeSessionManager.startSession,
        ClaudeSessionManager.stopSession, h]
      simp only [Option.isSome_some, if_true]
      simp [ClaudeSessionManager.lookupSession,
        find?_append_of_none _ _ _ (find?_filter_self st.sessions k), List.find?]
  · intro rest k
    simp [OdooShellManager.startGuard]

/-- C4: evaluation of the code at the failing input. Stopping the only
session removes its registry entry and broadcasts the abort and the stop,
but the pending permission entry created on behalf of that session is still
in the pending-permission table afterwards: `stopSession` never touches the
table, so the entry dangles until its own 60 s timer fires. -/
theorem c4_stopSession_leaves_pending_entry :
    (ClaudeSessionManager.stopSession
        ⟨[("A", ClaudeSessionManager.newSession none)], [("perm_1", "A")]⟩
        "A").1.pendingPermissions = [("perm_1", "A")] ∧
    ClaudeSessionManager.lookupSession
        (ClaudeSessionManager.stopSession
          ⟨[("A", ClaudeSessionManager.newSession none)], [("perm_1", "A")]⟩
          "A").1 "A" = none ∧
    (ClaudeSessionManager.stopSession
        ⟨[("A", ClaudeSessionManager.newSession none)], [("perm_1", "A")]⟩
        "A").2 =
      [ClaudeSessionManager.CEvent.abortSignalled "A",
       ClaudeSessionManager.CEvent.sessionStopped "A"] := by
  decide

/-- C9 counterexample: in a fresh session started without a resume id the
remote session id is still unknown when the first user turn is sent, and
`sendMessage` forwards no preview to the session-history store for that
first turn, against the claim that the first turn always does. -/
theorem c9_first_turn_without_id_no_preview :
    (ClaudeSessionManager.newSession none).messagesSent = 0 ∧
    (ClaudeSessionManager.sendMessage "A" (ClaudeSessionManager.newSession none)
        "hello" none).2.1 = none := by
  decide

/-- C9 (amended): `sendMessage` forwards the preview — instance id, session
id and the first 100 characters of the text — to the session-history store
exactly when the turn is the first of its session and the session already
has a remote session id (a resumed session, or one whose backend init
already arrived); the turn counter increments on every send, so only the
first turn can forward it. -/
theorem c9_preview_on_first_turn :
    ∀ (instanceId : String) (s : ClaudeSessionManager.Session) (text : String)
      (pid : Option String) (p : String × String × String),
      ((ClaudeSessionManager.sendMessage instanceId s text pid).2.1 = some p ↔
        (s.messagesSent = 0 ∧ ∃ sid, s.sessionId = some sid ∧
          p = (instanceId, sid, text.take 100))) ∧
      (ClaudeSessionManager.sendMessage instanceId s text pid).1.messagesSent =
        s.messagesSent + 1 := by
  intro instanceId s text pid p
  cases hr : s.inputResolve <;>
    cases hm : s.messagesSent <;>
    cases hs : s.sessionId <;>
      simp [ClaudeSessionManager.sendMessage, hr, hm, hs, eq_comm]

/-- Helper: a settled pending request is inert — every further action
returns the state unchanged. -/
theorem permRun_settled (input : String) (sugg : Option String)
    (st : ClaudeSessionManager.PermPending)
    (acts : List (Nat × ClaudeSessionManager.PermAction))
    (h : st.pending = false) :
    ClaudeSessionManager.permRun input sugg st acts = st := by
  induction acts with
  | nil => rfl
  | cons a rest ih =>
    have hstep : ClaudeSessionManager.permStep input sugg st a = st := by
      obtain ⟨t, act⟩ := a
      cases act <;> simp [ClaudeSessionManager.permStep, h]
    simp only [ClaudeSessionManager.permRun, hstep]
    exact ih

/-- Helper: starting from a state that has recorded no resolution while
pending and at most one ever, a run records at most one resolution. -/
theorem permRun_len_le (input : String) (sugg : Option String)
    (acts : List (Nat × ClaudeSessionManager.PermAction))
    (st : ClaudeSessionManager.PermPending)
    (hinv : st.pending = true → st.resolutions = [])
    (hlen : st.resolutions.length ≤ 1) :
    (ClaudeSessionManager.permRun input sugg st acts).resolutions.length ≤ 1 := by
  induction acts generalizing st with
  | nil => exact hlen
  | cons a rest ih =>
    simp only [ClaudeSessionManager.permRun]
    obtain ⟨t, act⟩ := a
    cases hp : st.pending with
    | false =>
      have hstep : ClaudeSessionManager.permStep input sugg st (t, act) = st := by
        cases act <;> simp [ClaudeSessionManager.permStep, hp]
      rw [hstep]
      exact ih st hinv hlen
    | true =>
      have hres : st.resolutions = [] := hinv hp
      cases act with
      | callerResolve allowed msg =>
        refine ih _ ?_ ?_ <;> simp [ClaudeSessionManager.permStep, hp, hres]
      | timerFire =>
        refine ih _ ?_ ?_ <;> simp [ClaudeSessionManager.permStep, hp, hres]

/-- C2: exactly one resolution takes effect for a pending permission
request. First, any sequence of caller resolutions and timer firings records
at most one resolution — a request is never resolved twice. Second, if the
caller resolves first, at any time `t`, the request resolves once with the
decision of the caller — allow carrying the suggestions, or deny carrying
the message of the caller or the default one — and every later action, the
60 s timer firing included, leaves the settled state unchanged. Third, a
request the caller never acts on resolves exactly once, to allow with the
original tool input, at exactly the 60 s timeout. -/
theorem c2_permission_single_resolution :
    ∀ (input : String) (sugg : Option String),
      (∀ acts : List (Nat × ClaudeSessionManager.PermAction),
        ((ClaudeSessionManager.permRun input sugg ClaudeSessionManager.initPerm
            acts).resolutions).length ≤ 1) ∧
      (∀ (t : Nat) (allowed : Bool) (msg : Option String)
         (rest : List (Nat × ClaudeSessionManager.PermAction)),
        ClaudeSessionManager.permRun input sugg ClaudeSessionManager.initPerm
            ((t, ClaudeSessionManager.PermAction.callerResolve allowed msg) :: rest) =
          ⟨false, [(t, if allowed
              then ClaudeSessionManager.PermResult.allow "" sugg
              else ClaudeSessionManager.PermResult.deny
                (msg.getD "User denied this action"))]⟩) ∧
      (ClaudeSessionManager.permRun input sugg ClaudeSessionManager.initPerm
          [(ClaudeSessionManager.permTimeoutMs,
            ClaudeSessionManager.PermAction.timerFire)] =
        ⟨false, [(ClaudeSessionManager.permTimeoutMs,
            ClaudeSessionManager.PermResult.allow input none)]⟩) := by
  intro input sugg
  refine ⟨?_, ?_, ?_⟩
  · intro acts
    exact permRun_len_le input sugg acts ClaudeSessionManager.initPerm
      (fun _ => rfl) (by simp [ClaudeSessionManager.initPerm])
  · intro t allowed msg rest
    have hstep : ClaudeSessionManager.permStep input sugg
        ClaudeSessionManager.initPerm
        (t, ClaudeSessionManager.PermAction.callerResolve allowed msg) =
        ⟨false, [(t, if allowed
            then ClaudeSessionManager.PermResult.allow "" sugg
            else ClaudeSessionManager.PermResult.deny
              (msg.getD "User denied this action"))]⟩ := by
      simp [ClaudeSessionManager.permStep, ClaudeSessionManager.initPerm]
    simp only [ClaudeSessionManager.permRun, hstep]
    exact permRun_settled _ _ _ rest rfl
  · simp [ClaudeSessionManager.permRun, ClaudeSessionManager.permStep,
      ClaudeSessionManager.initPerm]

/-- Helper: submitting turns into a session with no parked pull leaves the
pull unparked and appends the turns, in order, to the input queue. -/
theorem sendAll_queued (instanceId : String) (sid : Option String) (ms : Nat)
    (q : List ClaudeSessionManager.SDKUserMessage) (texts : List String) :
    ClaudeSessionManager.sendAll instanceId ⟨sid, ms, q, false⟩ texts =
      ⟨sid, ms + texts.length,
       q ++ texts.map (fun t => ⟨t, sid.getD "", none⟩), false⟩ := by
  induction texts generalizing ms q with
  | nil => simp [ClaudeSessionManager.sendAll]
  | cons t ts ih =>
    have hsend : (ClaudeSessionManager.sendMessage instanceId
        ⟨sid, ms, q, false⟩ t none).1 =
        ⟨sid, ms + 1, q ++ [⟨t, sid.getD "", none⟩], false⟩ := by
      simp [ClaudeSessionManager.sendMessage, ClaudeSessionManager.mkUserMessage]
    simp only [ClaudeSessionManager.sendAll, hsend, ih]
    simp only [ClaudeSessionManager.Session.mk.injEq, List.length_cons,
      List.map_cons, List.append_assoc, List.singleton_append, true_and, and_true]
    omega

/-- Helper: as many pulls as there are queued turns deliver exactly the
queued turns, in order. -/
theorem pulls_deliver_queue (sid : Option String) (ms : Nat)
    (q : List ClaudeSessionManager.SDKUserMessage) (r : Bool) :
    (ClaudeSessionManager.pulls ⟨sid, ms, q, r⟩ q.length).2 = q := by
  induction q with
  | nil => rfl
  | cons m rest ih =>
    simp [ClaudeSessionManager.pulls, ClaudeSessionManager.pull, ih]

/-- C7: every `sendMessage` on an active session performs exactly one of the
two actions — it resolves the parked backend pull immediately with the new
turn precisely when a pull is parked, leaving the queue untouched, and
otherwise appends the turn to the input queue — and afterwards no pull is
parked. Moreover, turns submitted before any backend pull are delivered by
the subsequent pulls in FIFO submission order. -/
theorem c7_sendMessage_exclusive_and_fifo :
    (∀ (instanceId : String) (s : ClaudeSessionManager.Session) (text : String)
       (pid : Option String),
      (ClaudeSessionManager.sendMessage instanceId s text pid).2.2 =
        (if s.inputResolve
         then ClaudeSessionManager.SendAction.resolvedNow
            (ClaudeSessionManager.mkUserMessage s text pid)
         else ClaudeSessionManager.SendAction.queued) ∧
      (ClaudeSessionManager.sendMessage instanceId s text pid).1.inputQueue =
        (if s.inputResolve then s.inputQueue
         else s.inputQueue ++ [ClaudeSessionManager.mkUserMessage s text pid]) ∧
      (ClaudeSessionManager.sendMessage instanceId s text pid).1.inputResolve =
        false) ∧
    (∀ (instanceId : String) (resume : Option String) (texts : List String),
      (ClaudeSessionManager.pulls
          (ClaudeSessionManager.sendAll instanceId
            (ClaudeSessionManager.newSession resume) texts)
          texts.length).2.map (fun m => m.content) = texts) := by
  refine ⟨?_, ?_⟩
  · intro instanceId s text pid
    cases hr : s.inputResolve <;>
      simp [ClaudeSessionManager.sendMessage, hr]
  · intro instanceId resume texts
    rw [show ClaudeSessionManager.newSession resume =
          (⟨resume, 0, [], false⟩ : ClaudeSessionManager.Session) from rfl,
        sendAll_queued]
    simp only [List.nil_append]
    rw [← List.length_map texts
          (fun t => (⟨t, resume.getD "", none⟩ : ClaudeSessionManager.SDKUserMessage)),
        pulls_deliver_queue]
    rw [List.map_map]
    exact List.map_id' texts

/-- Helper: `countP` adds over appends. -/
theorem countP_append (p : OdooProcessManager.PEvent → Bool)
    (a b : List OdooProcessManager.PEvent) :
    OdooProcessManager.countP p (a ++ b) =
      OdooProcessManager.countP p a + OdooProcessManager.countP p b := by
  simp [OdooProcessManager.countP, List.filter_append]

/-- Helper: the readiness flag after one processed line. -/
theorem processLine_flag (ctx : OdooProcessManager.LineCtx) (rd : Bool)
    (l : String) :
    (OdooProcessManager.processLine ctx rd l).1 =
      (rd || strContains l OdooProcessManager.readyMarker) := by
  cases rd <;> cases h : strContains l OdooProcessManager.readyMarker <;>
    simp [OdooProcessManager.processLine, h]

/-- Helper: `running` broadcasts emitted for one processed line. -/
theorem processLine_running (ctx : OdooProcessManager.LineCtx) (rd : Bool)
    (l : String) :
    OdooProcessManager.countP OdooProcessManager.isRunningEv
        (OdooProcessManager.processLine ctx rd l).2 =
      (if !rd && strContains l OdooProcessManager.readyMarker then 1 else 0) := by
  obtain ⟨id, nm, port, f, sup⟩ := ctx
  cases rd <;> cases h : strContains l OdooProcessManager.readyMarker <;>
    cases f <;> cases sup <;>
      simp [OdooProcessManager.processLine, OdooProcessManager.notify,
        OdooProcessManager.countP, OdooProcessManager.isRunningEv, h, List.filter]

/-- Helper: desktop notifications emitted for one processed line. -/
theorem processLine_notice (ctx : OdooProcessManager.LineCtx) (rd : Bool)
    (l : String) :
    OdooProcessManager.countP OdooProcessManager.isNoticeEv
        (OdooProcessManager.processLine ctx rd l).2 =
      (if (!rd && strContains l OdooProcessManager.readyMarker) &&
          (!ctx.focused && ctx.supported) then 1 else 0) := by
  obtain ⟨id, nm, port, f, sup⟩ := ctx
  cases rd <;> cases h : strContains l OdooProcessManager.readyMarker <;>
    cases f <;> cases sup <;>
      simp [OdooProcessManager.processLine, OdooProcessManager.notify,
        OdooProcessManager.countP, OdooProcessManager.isNoticeEv, h, List.filter]

/-- Helper: the readiness flag after a run of lines. -/
theorem runLines_flag (ctx : OdooProcessManager.LineCtx) (rd : Bool)
    (lines : List String) :
    (OdooProcessManager.runLines ctx rd lines).1 =
      (rd || lines.any (fun l => strContains l OdooProcessManager.readyMarker)) := by
  induction lines generalizing rd with
  | nil => simp [OdooProcessManager.runLines]
  | cons l ls ih =>
    simp only [OdooProcessManager.runLines, List.any_cons]
    rw [ih, processLine_flag]
    cases rd <;> cases strContains l OdooProcessManager.readyMarker <;> simp

/-- Helper: the one-or-zero bookkeeping of a flag-guarded count over two
stages. -/
theorem runCount_arith (rd c a : Bool) :
    ((if (!rd && c) = true then 1 else 0) +
      (if (!(rd || c) && a) = true then 1 else 0)) =
    (if (!rd && (c || a)) = true then 1 else 0) := by
  cases rd <;> cases c <;> cases a <;> decide

/-- Helper: the same bookkeeping with an extra conjunct on both counts. -/
theorem noticeCount_arith (rd c a b : Bool) :
    ((if ((!rd && c) && b) = true then 1 else 0) +
      (if ((!(rd || c) && a) && b) = true then 1 else 0)) =
    (if ((!rd && (c || a)) && b) = true then 1 else 0) := by
  cases rd <;> cases c <;> cases a <;> cases b <;> decide

/-- Helper: `running` broadcasts emitted over a run of lines. -/
theorem runLines_running (ctx : OdooProcessManager.LineCtx) (rd : Bool)
    (lines : List String) :
    OdooProcessManager.countP OdooProcessManager.isRunningEv
        (OdooProcessManager.runLines ctx rd lines).2 =
      (if !rd && lines.any (fun l => strContains l OdooProcessManager.readyMarker)
       then 1 else 0) := by
  induction lines generalizing rd with
  | nil => simp [OdooProcessManager.runLines, OdooProcessManager.countP]
  | cons l ls ih =>
    simp only [OdooProcessManager.runLines, List.any_cons, countP_append]
    rw [processLine_running, ih, processLine_flag]
    exact runCount_arith rd (strContains l OdooProcessManager.readyMarker)
      (ls.any fun x => strContains x OdooProcessManager.readyMarker)

/-- Helper: desktop notifications emitted over a run of lines. -/
theorem runLines_notice (ctx : OdooProcessManager.LineCtx) (rd : Bool)
    (lines : List String) :
    OdooProcessManager.countP OdooProcessManager.isNoticeEv
        (OdooProcessManager.runLines ctx rd lines).2 =
      (if (!rd && lines.any (fun l => strContains l OdooProcessManager.readyMarker))
          && (!ctx.focused && ctx.supported) then 1 else 0) := by
  induction lines generalizing rd with
  | nil => simp [OdooProcessManager.runLines, OdooProcessManager.countP]
  | cons l ls ih =>
    simp only [OdooProcessManager.runLines, List.any_cons, countP_append]
    rw [processLine_notice, ih, processLine_flag]
    exact noticeCount_arith rd (strContains l OdooProcessManager.readyMarker)
      (ls.any fun x => strContains x OdooProcessManager.readyMarker)
      (!ctx.focused && ctx.supported)

/-- C5: processing the output lines of a freshly started process (readiness
flag down), the flag ends up set iff some line contains the readiness
marker; exactly one `running` status broadcast is emitted when some line
contains the marker — later marker lines add none — and exactly one desktop
notification is emitted in that case when no window is focused and
notifications are supported, while a focused window suppresses it. -/
theorem c5_readiness_exactly_once :
    ∀ (ctx : OdooProcessManager.LineCtx) (lines : List String),
      (OdooProcessManager.runLines ctx false lines).1 =
        lines.any (fun l => strContains l OdooProcessManager.readyMarker) ∧
      OdooProcessManager.countP OdooProcessManager.isRunningEv
          (OdooProcessManager.runLines ctx false lines).2 =
        (if lines.any (fun l => strContains l OdooProcessManager.readyMarker)
         then 1 else 0) ∧
      OdooProcessManager.countP OdooProcessManager.isNoticeEv
          (OdooProcessManager.runLines ctx false lines).2 =
        (if lines.any (fun l => strContains l OdooProcessManager.readyMarker)
            && !ctx.focused && ctx.supported then 1 else 0) := by
  intro ctx lines
  refine ⟨?_, ?_, ?_⟩
  · simpa using runLines_flag ctx false lines
  · simpa using runLines_running ctx false lines
  · have h := runLines_notice ctx false lines
    simpa [Bool.and_assoc] using h

/-- C6 counterexample: with last output line "boom" and exit code 1, the
only ERROR line broadcast at exit is the synthetic message "Process exited
with code 1" — the last log line is not re-broadcast; moreover a null exit
code maps to `stopped` even though no stop was requested, where the claim
requires `error` for any exit that is neither code zero nor stop-requested. -/
theorem c6_exit_rebroadcast_counterexample :
    (OdooProcessManager.processLine ⟨"i", "n", 8069, true, true⟩ false "boom").2 =
      [OdooProcessManager.PEvent.logLine "i" "boom" "INFO"] ∧
    ((OdooProcessManager.closeHandler ⟨"i", "n", 8069, true, true⟩ ["i"]
        (some 1)).2.2.filter OdooProcessManager.isErrorLogEv =
      [OdooProcessManager.PEvent.logLine "i" "Process exited with code 1" "ERROR"]) ∧
    (OdooProcessManager.PEvent.logLine "i" "boom" "ERROR" ∉
      (OdooProcessManager.closeHandler ⟨"i", "n", 8069, true, true⟩ ["i"]
        (some 1)).2.2) ∧
    (OdooProcessManager.closeHandler ⟨"i", "n", 8069, true, true⟩ ["i"]
        none).2.1 = "stopped" := by
  decide

/-- C6 (amended): on process exit the final status is `stopped` iff the exit
code is zero or null (the signal-terminated exit that a stop-induced kill
produces) and `error` for any other exit code; in the error case the
broadcast ERROR-level log event is the synthetic "Process exited with code
N" message rather than a re-broadcast of the last log line, accompanied by a
desktop notification when no window is focused and notifications are
supported. -/
theorem c6_exit_status_mapping :
    ∀ (ctx : OdooProcessManager.LineCtx) (procs : List String) (code : Option Int),
      ((OdooProcessManager.closeHandler ctx procs code).2.1 = "stopped" ↔
        (code = some 0 ∨ code = none)) ∧
      ((OdooProcessManager.closeHandler ctx procs code).2.1 = "error" ↔
        ¬(code = some 0 ∨ code = none)) ∧
      ((OdooProcessManager.closeHandler ctx procs code).2.2.filter
          OdooProcessManager.isErrorLogEv =
        (match code with
         | some c =>
           if c = 0 then []
           else [OdooProcessManager.PEvent.logLine ctx.instanceId
              ("Process exited with code " ++ toString c) "ERROR"]
         | none => [])) ∧
      (OdooProcessManager.countP OdooProcessManager.isNoticeEv
          (OdooProcessManager.closeHandler ctx procs code).2.2 =
        (if (¬(code = some 0 ∨ code = none)) ∧ (!ctx.focused && ctx.supported) = true
         then 1 else 0)) := by
  intro ctx procs code
  obtain ⟨id, nm, port, f, sup⟩ := ctx
  cases code with
  | none =>
    cases f <;> cases sup <;>
      simp [OdooProcessManager.closeHandler, OdooProcessManager.notify,
        OdooProcessManager.countP, OdooProcessManager.isErrorLogEv,
        OdooProcessManager.isNoticeEv, List.filter]
  | some c =>
    by_cases hc : c = 0 <;>
      cases f <;> cases sup <;>
        simp [OdooProcessManager.closeHandler, OdooProcessManager.notify,
          OdooProcessManager.countP, OdooProcessManager.isErrorLogEv,
          OdooProcessManager.isNoticeEv, List.filter, hc]

/-- C8: the promise of `stop` on a running process settles by exactly one of
the three paths — graceful exit (close strictly before the 10 s kill timer),
forced-kill exit (close at or after the SIGKILL at 10 s but before the 15 s
bound), or the 15 s safety timer — always within the outer 15 s bound; and
the `close` listener defuses both timers, so a close before a timer means
that timer never fires, and any timer that does fire does so no later than
the settle time, never mutating already-settled state. -/
theorem c8_stop_completion :
    ∀ closeAt : Option Nat,
      OdooProcessManager.settleTime closeAt ≤ OdooProcessManager.safetyDelayMs ∧
      (OdooProcessManager.completion closeAt =
          OdooProcessManager.StopCompletion.gracefulExit ↔
        ∃ t, closeAt = some t ∧ t < OdooProcessManager.killDelayMs) ∧
      (OdooProcessManager.completion closeAt =
          OdooProcessManager.StopCompletion.forcedKillExit ↔
        ∃ t, closeAt = some t ∧ OdooProcessManager.killDelayMs ≤ t ∧
          t < OdooProcessManager.safetyDelayMs) ∧
      (OdooProcessManager.completion closeAt =
          OdooProcessManager.StopCompletion.safetyTimeout ↔
        ∀ t, closeAt = some t → OdooProcessManager.safetyDelayMs ≤ t) ∧
      (OdooProcessManager.killTimerFires closeAt = true →
        OdooProcessManager.killDelayMs ≤ OdooProcessManager.settleTime closeAt) ∧
      (OdooProcessManager.safetyTimerFires closeAt = true →
        OdooProcessManager.settleTime closeAt = OdooProcessManager.safetyDelayMs) ∧
      (∀ t, closeAt = some t → t < OdooProcessManager.killDelayMs →
        OdooProcessManager.killTimerFires closeAt = false) ∧
      (∀ t, closeAt = some t → t < OdooProcessManager.safetyDelayMs →
        OdooProcessManager.safetyTimerFires closeAt = false) := by
  intro closeAt
  cases closeAt with
  | none =>
    refine ⟨?_, ?_, ?_, ?_, ?_, ?_, ?_, ?_⟩ <;>
      simp [OdooProcessManager.settleTime, OdooProcessManager.completion,
        OdooProcessManager.killTimerFires, OdooProcessManager.safetyTimerFires,
        OdooProcessManager.killDelayMs, OdooProcessManager.safetyDelayMs]
  | some t =>
    simp only [OdooProcessManager.settleTime, OdooProcessManager.completion,
      OdooProcessManager.killTimerFires, OdooProcessManager.safetyTimerFires,
      OdooProcessManager.killDelayMs, OdooProcessManager.safetyDelayMs,
      Option.some.injEq, decide_eq_true_eq, decide_eq_false_iff_not]
    refine ⟨?_, ?_, ?_, ?_, ?_, ?_, ?_, ?_⟩
    · omega
    · split_ifs <;> simp_all
    · split_ifs <;> simp_all
    · split_ifs <;> simp_all
      omega
    · intro h
      omega
    · intro h
      omega
    · intro u hu hlt
      omega
    · intro u hu hlt
      omega

/-- C8 witness: the theorem applied at a close 3 s after the stop request —
both timers are defused. -/
theorem c8_stop_completion_witness :
    OdooProcessManager.killTimerFires (some 3000) = false ∧
    OdooProcessManager.safetyTimerFires (some 3000) = false :=
  ⟨(c8_stop_completion (some 3000)).2.2.2.2.2.2.1 3000 rfl (by decide),
   (c8_stop_completion (some 3000)).2.2.2.2.2.2.2 3000 rfl (by decide)⟩

/-- Helper: the severity returned by `findLevel` is one of the words it was
given. -/
theorem findLevel_mem (ws : List String) (cs : List Char)
    (lv : String) (rest : List Char)
    (h : OdooProcessManager.findLevel ws cs = some (lv, rest)) : lv ∈ ws := by
  induction ws generalizing cs with
  | nil => simp [OdooProcessManager.findLevel] at h
  | cons w ws ih =>
    simp only [OdooProcessManager.findLevel] at h
    cases hw : OdooProcessManager.stripWord w.toList cs with
    | some r =>
      rw [hw] at h
      simp only [Option.some.injEq, Prod.mk.injEq] at h
      exact h.1 ▸ List.mem_cons_self w ws
    | none =>
      rw [hw] at h
      exact List.mem_cons_of_mem w (ih _ h)

/-- Helper: the severity captured by a successful `matchOdooAt` is one of
the five level words. -/
theorem matchOdooAt_level (cs : List Char) (lv md msg : String)
    (h : OdooProcessManager.matchOdooAt cs = some (lv, md, msg)) :
    lv ∈ OdooProcessManager.levelWords := by
  unfold OdooProcessManager.matchOdooAt at h
  cases h1 : OdooProcessManager.matchHead cs with
  | none => simp [h1] at h
  | some cs1 =>
    simp only [h1] at h
    cases h2 : OdooProcessManager.findLevel OdooProcessManager.levelWords cs1 with
    | none => simp [h2] at h
    | some p =>
      obtain ⟨lv0, cs2⟩ := p
      simp only [h2] at h
      cases h3 : OdooProcessManager.expectPlus OdooProcessManager.isSpaceCh cs2 with
      | none => simp [h3] at h
      | some cs3 =>
        simp only [h3] at h
        cases h4 : OdooProcessManager.scanModuleAux [] cs3 with
        | none => simp [h4] at h
        | some q =>
          obtain ⟨md0, cs4⟩ := q
          simp only [h4, Option.some.injEq, Prod.mk.injEq] at h
          exact h.1 ▸ findLevel_mem _ _ _ _ h2

/-- Helper: the severity captured by a successful search is one of the five
level words. -/
theorem searchOdoo_level (cs : List Char) (lv md msg : String)
    (h : OdooProcessManager.searchOdoo cs = some (lv, md, msg)) :
    lv ∈ OdooProcessManager.levelWords := by
  induction cs with
  | nil => simp [OdooProcessManager.searchOdoo] at h
  | cons c rest ih =>
    simp only [OdooProcessManager.searchOdoo] at h
    cases hm : OdooProcessManager.matchOdooAt (c :: rest) with
    | some r =>
      rw [hm] at h
      simp only [Option.some.injEq] at h
      exact matchOdooAt_level (c :: rest) lv md msg (h ▸ hm)
    | none =>
      rw [hm] at h
      exact ih h

/-- C10 (amended): log-line classification is total with a fixed default,
but the broadcast log event always carries the entire original line, not the
captured remainder. For every output line, processing it broadcasts exactly
one log event, whose level is the classification computed by `parseLogLine`
and whose line field is the whole original line. A line on which the search
for the structured pattern fails is classified INFO with the entire line as
the message; a line on which it succeeds carries the captured severity — one
of the five level words — with the remainder as the `message` field of the
parse (which the broadcast does not use). No line is dropped or raises an
error. -/
theorem c10_classification_total :
    ∀ (ctx : OdooProcessManager.LineCtx) (rd : Bool) (line : String),
      ((OdooProcessManager.processLine ctx rd line).2.filter
          OdooProcessManager.isLogEv =
        [OdooProcessManager.PEvent.logLine ctx.instanceId line
          (OdooProcessManager.parseLogLine line).level]) ∧
      (OdooProcessManager.searchOdoo line.toList = none →
        OdooProcessManager.parseLogLine line = ⟨"INFO", "", line⟩) ∧
      (∀ lv md msg,
        OdooProcessManager.searchOdoo line.toList = some (lv, md, msg) →
        OdooProcessManager.parseLogLine line = ⟨lv, md, msg⟩ ∧
          lv ∈ OdooProcessManager.levelWords) := by
  intro ctx rd line
  refine ⟨?_, ?_, ?_⟩
  · obtain ⟨id, nm, port, f, sup⟩ := ctx
    cases rd <;> cases h : strContains line OdooProcessManager.readyMarker <;>
      cases f <;> cases sup <;>
        simp [OdooProcessManager.processLine, OdooProcessManager.notify,
          OdooProcessManager.isLogEv, h, List.filter]
  · intro h
    simp only [String.toList] at h
    simp [OdooProcessManager.parseLogLine, h]
  · intro lv md msg h
    refine ⟨?_, searchOdoo_level line.toList lv md msg h⟩
    have h2 := h
    simp only [String.toList] at h2
    simp [OdooProcessManager.parseLogLine, h2]

/-- C10 witness: the theorem applied to a non-matching line and to a
matching line. -/
theorem c10_classification_total_witness :
    OdooProcessManager.parseLogLine "plain text" = ⟨"INFO", "", "plain text"⟩ ∧
    (OdooProcessManager.parseLogLine "2024-01-01 08:00:00,123 42 DEBUG core: ok" =
        ⟨"DEBUG", "core", "ok"⟩ ∧
      "DEBUG" ∈ OdooProcessManager.levelWords) :=
  ⟨(c10_classification_total ⟨"i", "n", 0, false, false⟩ false
      "plain text").2.1 (by decide),
   (c10_classification_total ⟨"i", "n", 0, false, false⟩ false
      "2024-01-01 08:00:00,123 42 DEBUG core: ok").2.2 "DEBUG" "core" "ok"
      (by decide)⟩

/-- C10 counterexample: for a line matching the structured pattern the
parse captures severity WARNING and remainder "hello", but the single log
event broadcast for that line carries the entire original line, not the
remainder — so the claim that the broadcast event carries the remainder as
its message fails on this input. -/
theorem c10_broadcast_carries_whole_line :
    OdooProcessManager.parseLogLine
        "2024-01-01 12:00:00,000 123 WARNING mod: hello" =
      ⟨"WARNING", "mod", "hello"⟩ ∧
    ((OdooProcessManager.processLine ⟨"i", "n", 0, false, false⟩ false
        "2024-01-01 12:00:00,000 123 WARNING mod: hello").2.filter
        OdooProcessManager.isLogEv =
      [OdooProcessManager.PEvent.logLine "i"
        "2024-01-01 12:00:00,000 123 WARNING mod: hello" "WARNING"]) ∧
    (OdooProcessManager.PEvent.logLine "i" "hello" "WARNING" ∉
      (OdooProcessManager.processLine ⟨"i", "n", 0, false, false⟩ false
        "2024-01-01 12:00:00,000 123 WARNING mod: hello").2) := by
  decide

end Spec2Proof
